import Mathlib

/- Shallow embedding of the recruiter-search service
   (services/recruiter-search/cmd/service/main.go) and the recruiter-workflow
   service (the unnamed workflow source file: RequestStore, /requests and
   /requests/id/respond handlers, openChatSession).

   Modelling conventions:
   - Go strings are Lean strings; strings.ToLower is modelled as mapping
     Char.toLower over the characters (ASCII case folding), written as a list
     map so that it evaluates in the kernel.
   - A Go map store is modelled as a list of entries; the list order stands for
     the (unspecified) iteration order of the map.  Two stores that are
     permutations of each other with the same bindings denote the same map
     state observed in two different iteration orders.
   - sort.Slice with less i j = score i > score j is modelled by insertion
     sort with the relation scoreGE; this is a deterministic representative of
     the Go sort (for the two-element inputs evaluated below it coincides with
     the small-n insertion sort Go uses).
   - Time is counted in whole days as an integer: time.Now is the parameter
     now, and AddDate(0, 0, d) is now + d.
   - The outbound chat call of openChatSession is given an explicit outcome
     parameter ChatOutcome; the Go code only logs it, so the handler result
     may not depend on it.  The order of observable actions in the respond
     handler is recorded as a list of WfEvent values. -/

def lowerStr (s : String) : String := String.mk (s.data.map Char.toLower)

structure CandidateIndex where
  id : String
  name : String
  skills : List String
  readinessStatus : String
deriving DecidableEq

structure SearchRequest where
  skills : List String
  readinessStatus : String
  minimumScore : Int
deriving DecidableEq

structure SearchResult where
  candidate : CandidateIndex
  score : Nat
deriving DecidableEq

abbrev IndexStore := List CandidateIndex

/-- IndexStore.Upsert: replace the binding of candidate.ID, lowercasing the
readiness status; everything else of the entry is stored as given. -/
def IndexStore.upsert (s : IndexStore) (c : CandidateIndex) : IndexStore :=
  s.filter (fun e => e.id != c.id)
    ++ [{ c with readinessStatus := lowerStr c.readinessStatus }]

/-- Map lookup on the index store (items[id]). -/
def IndexStore.find (s : IndexStore) (i : String) : Option CandidateIndex :=
  s.find? (fun e => e.id == i)

/-- The case-insensitive skill set built at the top of Search, modelled as the
list of lowercased query skills with membership via contains. -/
def querySkillSet (skills : List String) : List String := skills.map lowerStr

/-- The score loop of Search: count of candidate skill entries whose lowercase
form is in the query skill set (occurrences counted, not deduplicated). -/
def skillScore (querySkills : List String) (candSkills : List String) : Nat :=
  candSkills.countP (fun sk => (querySkillSet querySkills).contains (lowerStr sk))

/-- One iteration of the Search loop: the readiness filter, the score, and the
minimum-score filter, in source order. -/
def keepCandidate (req : SearchRequest) (c : CandidateIndex) : Option SearchResult :=
  if req.readinessStatus ≠ "" ∧ lowerStr c.readinessStatus ≠ lowerStr req.readinessStatus then
    none
  else
    let score := skillScore req.skills c.skills
    if req.minimumScore > 0 ∧ (score : Int) < req.minimumScore then none
    else some ⟨c, score⟩

/-- Ordering used by the final sort of Search: scores non-increasing. -/
def scoreGE (a b : SearchResult) : Prop := b.score ≤ a.score

instance : DecidableRel scoreGE := fun a b => Nat.decLe b.score a.score

instance : IsTotal SearchResult scoreGE := ⟨fun a b => Nat.le_total b.score a.score⟩

instance : IsTrans SearchResult scoreGE :=
  ⟨fun _ _ _ h1 h2 => Nat.le_trans h2 h1⟩

/-- IndexStore.Search: filter and score every candidate in iteration order,
then sort descending by score. -/
def IndexStore.search (s : IndexStore) (req : SearchRequest) : List SearchResult :=
  List.insertionSort scoreGE (s.filterMap (keepCandidate req))

inductive IndexHttpResponse where
  | badRequest
  | noContent
deriving DecidableEq

/-- The POST /index handler after JSON decoding: reject only an empty id,
otherwise upsert and answer 204. -/
def indexHandler (s : IndexStore) (c : CandidateIndex) : IndexHttpResponse × IndexStore :=
  if c.id = "" then (IndexHttpResponse.badRequest, s)
  else (IndexHttpResponse.noContent, IndexStore.upsert s c)

structure InterviewRequest where
  id : String
  recruiterId : String
  candidateId : String
  status : String
  expiresAt : Int
deriving DecidableEq

abbrev RequestStore := List (String × InterviewRequest)

/-- RequestStore.Get: map lookup keyed by request id. -/
def RequestStore.get (s : RequestStore) (i : String) : Option InterviewRequest :=
  (s.find? (fun p => p.1 == i)).map (fun p => p.2)

/-- RequestStore.Create: bind req.ID to req (map assignment) and return req. -/
def RequestStore.create (s : RequestStore) (req : InterviewRequest) :
    InterviewRequest × RequestStore :=
  (req, (req.id, req) :: s.filter (fun p => p.1 != req.id))

/-- RequestStore.Update: look the id up; when absent return the store
unchanged, otherwise overwrite the status field of the binding. -/
def RequestStore.update (s : RequestStore) (i status : String) :
    Option InterviewRequest × RequestStore :=
  match s.find? (fun p => p.1 == i) with
  | none => (none, s)
  | some (_, r) =>
      (some { r with status := status },
       s.map (fun p => if p.1 == i then (i, { r with status := status }) else p))

/-- The default substitution of the /requests handler: 7 when the supplied
expires_in_days is ≤ 0. -/
def effectiveDays (d : Int) : Int := if d ≤ 0 then 7 else d

/-- The POST /requests handler after JSON decoding: build a pending request
whose expiresAt is now plus the effective number of days, store and return
it.  The generated id and the current time are parameters. -/
def createHandler (s : RequestStore) (recruiterId candidateId : String)
    (expiresInDays : Int) (newId : String) (now : Int) :
    InterviewRequest × RequestStore :=
  RequestStore.create s
    ⟨newId, recruiterId, candidateId, "pending", now + effectiveDays expiresInDays⟩

/-- Outcome of the outbound chat-session call; the Go handler only logs it. -/
inductive ChatOutcome where
  | success
  | httpError (code : Nat)
  | networkError
  | timeout
deriving DecidableEq

inductive RespondResult where
  | invalidStatus
  | notFound
  | ok (req : InterviewRequest)
deriving DecidableEq

/-- Observable actions of the respond handler, in the order they happen. -/
inductive WfEvent where
  | statusPersisted (i status : String)
  | chatAttempted (candidateId recruiterId : String)
  | httpResponded (code : Nat)
deriving DecidableEq

/-- The status validation of the respond handler: lowercase, then compare with
the three terminal values. -/
def validRespondStatus (raw : String) : Bool :=
  lowerStr raw == "confirmed" || lowerStr raw == "rejected"
    || lowerStr raw == "no_response"

/-- The POST /requests/id/respond handler after JSON decoding: validate the
status, update the store, and on a confirmed status attempt the chat call
(openChatSession does nothing when chatURL is empty and its outcome is only
logged).  Returns the HTTP-level result, the new store, and the event list. -/
def respondHandler (s : RequestStore) (i raw chatURL : String) (chat : ChatOutcome) :
    RespondResult × RequestStore × List WfEvent :=
  let status := lowerStr raw
  if validRespondStatus raw then
    match RequestStore.update s i status with
    | (none, s') => (RespondResult.notFound, s', [WfEvent.httpResponded 404])
    | (some req, s') =>
        let chatEvents :=
          if status == "confirmed" && chatURL != "" then
            [WfEvent.chatAttempted req.candidateId req.recruiterId]
          else []
        (RespondResult.ok req, s',
         WfEvent.statusPersisted i status :: chatEvents ++ [WfEvent.httpResponded 200])
  else (RespondResult.invalidStatus, s, [WfEvent.httpResponded 400])

/-- One externally triggered operation of the workflow service. -/
inductive WfOp where
  | createReq (recruiterId candidateId : String) (expiresInDays : Int)
      (newId : String) (now : Int)
  | respond (i raw chatURL : String) (chat : ChatOutcome)

/-- State change of one operation (the stores the handlers leave behind). -/
def applyOp (s : RequestStore) : WfOp → RequestStore
  | WfOp.createReq rid cid d newId now => (createHandler s rid cid d newId now).2
  | WfOp.respond i raw url chat => (respondHandler s i raw url chat).2.1

/-- Run a sequence of operations from the empty store. -/
def runOps (ops : List WfOp) : RequestStore := ops.foldl applyOp []

/-- Freshness of the generated id on create, as newID guarantees in practice. -/
def opFresh (s : RequestStore) : WfOp → Prop
  | WfOp.createReq _ _ _ newId _ => RequestStore.get s newId = none
  | WfOp.respond _ _ _ _ => True

def wCand : CandidateIndex := ⟨"c1", "Ada", ["Go", "Kafka"], "verified"⟩

def wReq : SearchRequest := ⟨["kafka"], "", 0⟩

def cA : CandidateIndex := ⟨"a", "A", [], "verified"⟩

def cB : CandidateIndex := ⟨"b", "B", [], "verified"⟩

def qTie : SearchRequest := ⟨[], "", 0⟩

def bogusCand : CandidateIndex := ⟨"c9", "Nia", [], "Bogus"⟩

def wReq1 : InterviewRequest := ⟨"req1", "r1", "c1", "pending", 7⟩

def demoOps : List WfOp :=
  [WfOp.createReq "r1" "c1" 7 "req1" 0,
   WfOp.respond "req1" "confirmed" "" ChatOutcome.success,
   WfOp.respond "req1" "rejected" "" ChatOutcome.success]

theorem find?_filter_none {α : Type} (p q : α → Bool) (l : List α)
    (h : ∀ x, q x = true → p x = false) : (l.filter q).find? p = none := by
  induction l with
  | nil => rfl
  | cons a t ih =>
    cases hq : q a with
    | true => simp [List.filter_cons, hq, List.find?, h a hq, ih]
    | false => simp [List.filter_cons, hq, ih]

theorem find?_filter_of_imp {α : Type} (p q : α → Bool) (l : List α)
    (h : ∀ x, p x = true → q x = true) : (l.filter q).find? p = l.find? p := by
  induction l with
  | nil => rfl
  | cons a t ih =>
    cases hp : p a with
    | true => simp [List.filter_cons, h a hp, List.find?, hp]
    | false =>
      cases hq : q a with
      | true => simp [List.filter_cons, hq, List.find?, hp, ih]
      | false =>
        have : (t.filter q).find? p = t.find? p := ih
        simp [List.filter_cons, hq, List.find?, hp, this]

theorem keepCandidate_eq_some_iff (req : SearchRequest) (c : CandidateIndex)
    (r : SearchResult) :
    keepCandidate req c = some r ↔
      ((req.readinessStatus = "" ∨ lowerStr c.readinessStatus = lowerStr req.readinessStatus)
       ∧ (req.minimumScore ≤ 0 ∨ req.minimumScore ≤ (skillScore req.skills c.skills : Int))
       ∧ r = ⟨c, skillScore req.skills c.skills⟩) := by
  simp only [keepCandidate]
  split_ifs with h1 h2
  · constructor
    · intro h; exact absurd h (by simp)
    · rintro ⟨hA | hA, -, -⟩
      · exact absurd hA h1.1
      · exact absurd hA h1.2
  · constructor
    · intro h; exact absurd h (by simp)
    · rintro ⟨-, hB | hB, -⟩
      · omega
      · omega
  · constructor
    · intro h
      obtain rfl : r = ⟨c, skillScore req.skills c.skills⟩ := (Option.some.inj h).symm
      refine ⟨?_, ?_, rfl⟩
      · by_cases ha : req.readinessStatus = ""
        · exact Or.inl ha
        · rw [not_and_or] at h1
          rcases h1 with h1 | h1
          · exact absurd ha (by simpa using h1)
          · exact Or.inr (by simpa using h1)
      · omega
    · rintro ⟨-, -, rfl⟩
      rfl

/-- C1: every entry of the Search result reports as score the number of the
candidate skill entries (occurrences counted) whose lowercase form lies in
the lowercased query skill set; with empty query skills the score is 0. -/
theorem search_result_score (s : IndexStore) (req : SearchRequest) (r : SearchResult)
    (hr : r ∈ IndexStore.search s req) :
    r.score = r.candidate.skills.countP
        (fun sk => (req.skills.map lowerStr).contains (lowerStr sk))
    ∧ (req.skills = [] → r.score = 0) := by
  rw [IndexStore.search, List.mem_insertionSort] at hr
  obtain ⟨c, -, hk⟩ := List.mem_filterMap.mp hr
  rw [keepCandidate_eq_some_iff] at hk
  obtain ⟨-, -, rfl⟩ := hk
  refine ⟨rfl, fun h => ?_⟩
  simp [skillScore, querySkillSet, h]

theorem search_result_score_witness :
    (⟨wCand, 1⟩ : SearchResult) ∈ IndexStore.search [wCand] wReq
    ∧ ((⟨wCand, 1⟩ : SearchResult).score
          = (⟨wCand, 1⟩ : SearchResult).candidate.skills.countP
              (fun sk => (wReq.skills.map lowerStr).contains (lowerStr sk))
       ∧ (wReq.skills = [] → (⟨wCand, 1⟩ : SearchResult).score = 0)) :=
  ⟨by decide, search_result_score [wCand] wReq ⟨wCand, 1⟩ (by decide)⟩

/-- C3: an indexed candidate appears in the Search result exactly when the
readiness filter passes (empty query readiness, or case-insensitive equality)
and the minimum-score filter passes (non-positive minimum, or score at least
the minimum); an empty result list is an ordinary value of the function. -/
theorem search_membership (s : IndexStore) (req : SearchRequest) (c : CandidateIndex)
    (hc : c ∈ s) :
    (∃ r ∈ IndexStore.search s req, r.candidate = c) ↔
      ((req.readinessStatus = "" ∨ lowerStr c.readinessStatus = lowerStr req.readinessStatus)
       ∧ (req.minimumScore ≤ 0 ∨ req.minimumScore ≤ (skillScore req.skills c.skills : Int))) := by
  constructor
  · rintro ⟨r, hr, hrc⟩
    rw [IndexStore.search, List.mem_insertionSort] at hr
    obtain ⟨c0, -, hk⟩ := List.mem_filterMap.mp hr
    rw [keepCandidate_eq_some_iff] at hk
    obtain ⟨hA, hB, rfl⟩ := hk
    obtain rfl : c0 = c := hrc
    exact ⟨hA, hB⟩
  · rintro ⟨hA, hB⟩
    refine ⟨⟨c, skillScore req.skills c.skills⟩, ?_, rfl⟩
    rw [IndexStore.search, List.mem_insertionSort]
    exact List.mem_filterMap.mpr ⟨c, hc, (keepCandidate_eq_some_iff req c _).mpr ⟨hA, hB, rfl⟩⟩

theorem search_membership_witness :
    wCand ∈ ([wCand] : IndexStore)
    ∧ ((∃ r ∈ IndexStore.search [wCand] wReq, r.candidate = wCand) ↔
        ((wReq.readinessStatus = ""
            ∨ lowerStr wCand.readinessStatus = lowerStr wReq.readinessStatus)
         ∧ (wReq.minimumScore ≤ 0
            ∨ wReq.minimumScore ≤ (skillScore wReq.skills wCand.skills : Int)))) :=
  ⟨by decide, search_membership [wCand] wReq wCand (by decide)⟩

/-- C4 (amended): the Search result is sorted non-increasing by score, and for
two iteration orders of the same index map the results agree as multisets;
the order of equal scores, however, follows the iteration order and is not
uniquely determined by the map state (see the counterexample). -/
theorem search_sorted_and_perm (s : IndexStore) (req : SearchRequest) :
    List.Sorted scoreGE (IndexStore.search s req)
    ∧ ∀ s2 : IndexStore, s.Perm s2 →
        (IndexStore.search s req).Perm (IndexStore.search s2 req) := by
  constructor
  · exact List.sorted_insertionSort scoreGE _
  · intro s2 hp
    exact ((List.perm_insertionSort scoreGE _).trans (hp.filterMap _)).trans
      (List.perm_insertionSort scoreGE _).symm

theorem search_sorted_and_perm_witness :
    ([cA, cB] : IndexStore).Perm [cB, cA]
    ∧ (IndexStore.search [cA, cB] qTie).Perm (IndexStore.search [cB, cA] qTie) :=
  ⟨by decide, (search_sorted_and_perm [cA, cB] qTie).2 [cB, cA] (by decide)⟩

/-- C4 counterexample: two iteration orders of the same two-entry index map
(a permutation pair) give two different result sequences for the same query,
so the returned sequence is not uniquely determined by the index state. -/
theorem search_order_not_unique :
    ([cA, cB] : IndexStore).Perm [cB, cA]
    ∧ IndexStore.search [cA, cB] qTie = [⟨cA, 0⟩, ⟨cB, 0⟩]
    ∧ IndexStore.search [cB, cA] qTie = [⟨cB, 0⟩, ⟨cA, 0⟩]
    ∧ IndexStore.search [cA, cB] qTie ≠ IndexStore.search [cB, cA] qTie := by
  decide

/-- C8: Upsert binds the entry id to the entry with the readiness status
lowercased and the skills stored exactly as given, leaves every other binding
alone, is idempotent on the store, and so leaves every subsequent Search
result unchanged. -/
theorem upsert_spec (s : IndexStore) (e : CandidateIndex) :
    IndexStore.find (IndexStore.upsert s e) e.id
        = some { e with readinessStatus := lowerStr e.readinessStatus }
    ∧ (∀ k, k ≠ e.id →
        IndexStore.find (IndexStore.upsert s e) k = IndexStore.find s k)
    ∧ IndexStore.upsert (IndexStore.upsert s e) e = IndexStore.upsert s e
    ∧ ∀ q, IndexStore.search (IndexStore.upsert (IndexStore.upsert s e) e) q
          = IndexStore.search (IndexStore.upsert s e) q := by
  have hidem : IndexStore.upsert (IndexStore.upsert s e) e = IndexStore.upsert s e := by
    simp only [IndexStore.upsert, List.filter_append, List.filter_filter]
    simp [List.filter_cons, Bool.and_self]
  refine ⟨?_, ?_, hidem, fun q => by rw [hidem]⟩
  · have h1 : (s.filter (fun x => x.id != e.id)).find? (fun x => x.id == e.id) = none := by
      refine find?_filter_none _ _ _ (fun x hq => ?_)
      have : x.id ≠ e.id := by simpa using hq
      simpa using this
    rw [IndexStore.find, IndexStore.upsert, List.find?_append, h1, Option.none_or]
    simp [List.find?]
  · intro k hk
    have himp : ∀ x : CandidateIndex, (x.id == k) = true → (x.id != e.id) = true := by
      intro x hx
      have hxk : x.id = k := by simpa using hx
      simpa [hxk] using hk
    have h2 : ([{ e with readinessStatus := lowerStr e.readinessStatus }] :
        List CandidateIndex).find? (fun x => x.id == k) = none := by
      have hbeq : (e.id == k) = false := beq_eq_false_iff_ne.mpr (Ne.symm hk)
      simp [List.find?, hbeq]
    rw [IndexStore.find, IndexStore.upsert, List.find?_append,
      find?_filter_of_imp _ _ _ himp, h2, Option.or_none]
    rfl

theorem upsert_spec_witness :
    ("zz" : String) ≠ wCand.id
    ∧ IndexStore.find (IndexStore.upsert [] wCand) "zz" = IndexStore.find [] "zz" :=
  ⟨by decide, (upsert_spec [] wCand).2.1 "zz" (by decide)⟩

/-- C9 counterexample: a POST /index body with id c9 and readiness status
Bogus, outside the readiness enum, is accepted with 204 and the entry reaches
the store (readiness stored lowercased), instead of being rejected as a
validation error. -/
theorem index_accepts_unknown_readiness :
    (indexHandler [] bogusCand).1 = IndexHttpResponse.noContent
    ∧ IndexStore.find (indexHandler [] bogusCand).2 "c9"
        = some { bogusCand with readinessStatus := "bogus" }
    ∧ ("bogus" : String) ≠ "verified" ∧ ("bogus" : String) ≠ "unverified" := by
  decide

/-- C9 (amended): the only rejection of the /index boundary is a missing id
(after JSON decoding); any non-empty-id entry, whatever its readiness value,
is upserted into the store and answered with 204. -/
theorem indexHandler_spec (s : IndexStore) (c : CandidateIndex) :
    (c.id = "" → indexHandler s c = (IndexHttpResponse.badRequest, s))
    ∧ (c.id ≠ "" → indexHandler s c = (IndexHttpResponse.noContent, IndexStore.upsert s c)) := by
  constructor <;> intro h <;> simp [indexHandler, h]

theorem indexHandler_spec_witness :
    bogusCand.id ≠ ""
    ∧ indexHandler [] bogusCand
        = (IndexHttpResponse.noContent, IndexStore.upsert [] bogusCand) :=
  ⟨by decide, (indexHandler_spec [] bogusCand).2 (by decide)⟩

theorem validRespondStatus_iff (raw : String) :
    validRespondStatus raw = true ↔
      (lowerStr raw = "confirmed" ∨ lowerStr raw = "rejected"
        ∨ lowerStr raw = "no_response") := by
  simp [validRespondStatus, or_assoc]

theorem update_of_get_none (s : RequestStore) (i status : String)
    (h : RequestStore.get s i = none) :
    RequestStore.update s i status = (none, s) := by
  unfold RequestStore.get at h
  unfold RequestStore.update
  cases hf : s.find? (fun p => p.1 == i) with
  | none => rfl
  | some p => rw [hf] at h; simp at h

theorem update_of_get_some (s : RequestStore) (i status : String) (r : InterviewRequest)
    (h : RequestStore.get s i = some r) :
    RequestStore.update s i status
      = (some { r with status := status },
         s.map (fun p => if p.1 == i then (i, { r with status := status }) else p)) := by
  unfold RequestStore.get at h
  unfold RequestStore.update
  cases hf : s.find? (fun p => p.1 == i) with
  | none => rw [hf] at h; simp at h
  | some p =>
      obtain ⟨k, v⟩ := p
      rw [hf] at h
      simp at h
      subst h
      rfl

theorem get_map_update_self (s : RequestStore) (j : String) (r v : InterviewRequest)
    (h : RequestStore.get s j = some r) :
    RequestStore.get (s.map (fun p => if p.1 = j then (j, v) else p)) j = some v := by
  induction s with
  | nil => simp [RequestStore.get] at h
  | cons a t ih =>
    by_cases hk : a.1 = j
    · simp [RequestStore.get, List.find?, hk]
    · have hb : (a.1 == j) = false := beq_eq_false_iff_ne.mpr hk
      have h2 : RequestStore.get t j = some r := by
        simpa [RequestStore.get, List.find?, hk, hb] using h
      simpa [RequestStore.get, List.find?, hk, hb] using ih h2

theorem get_map_update_ne (s : RequestStore) (j i : String) (v : InterviewRequest)
    (hne : i ≠ j) :
    RequestStore.get (s.map (fun p => if p.1 = j then (j, v) else p)) i
      = RequestStore.get s i := by
  induction s with
  | nil => rfl
  | cons a t ih =>
    by_cases hk : a.1 = j
    · have hji : (j == i) = false := beq_eq_false_iff_ne.mpr (Ne.symm hne)
      have hai : (a.1 == i) = false := by rw [hk]; exact hji
      simpa [RequestStore.get, List.find?, hk, hji, hai] using ih
    · by_cases hi : a.1 = i
      · have hbi : (a.1 == i) = true := beq_iff_eq.mpr hi
        simp [RequestStore.get, List.find?, hk, hbi]
      · have hbi : (a.1 == i) = false := beq_eq_false_iff_ne.mpr hi
        simpa [RequestStore.get, List.find?, hk, hbi] using ih

theorem get_create_self (s : RequestStore) (req : InterviewRequest) :
    RequestStore.get (RequestStore.create s req).2 req.id = some req := by
  simp [RequestStore.get, RequestStore.create, List.find?]

theorem get_create_ne (s : RequestStore) (req : InterviewRequest) (i : String)
    (h : i ≠ req.id) :
    RequestStore.get (RequestStore.create s req).2 i = RequestStore.get s i := by
  have hb : (req.id == i) = false := beq_eq_false_iff_ne.mpr (Ne.symm h)
  have himp : ∀ x : String × InterviewRequest,
      (x.1 == i) = true → (x.1 != req.id) = true := by
    intro x hx
    have hxi : x.1 = i := beq_iff_eq.mp hx
    simpa [hxi] using h
  simp [RequestStore.get, RequestStore.create, List.find?, hb,
    find?_filter_of_imp _ _ _ himp]

/-- C5: the /requests handler stores and returns a request with status pending
and expiresAt = now plus the supplied number of days, with 7 substituted when
the supplied value is ≤ 0; in particular 0 days and 7 days give the same
expiry offset. -/
theorem createHandler_spec (s : RequestStore) (rid cid newId : String) (d now : Int) :
    (createHandler s rid cid d newId now).1.status = "pending"
    ∧ (createHandler s rid cid d newId now).1.expiresAt = now + (if d ≤ 0 then 7 else d)
    ∧ RequestStore.get (createHandler s rid cid d newId now).2 newId
        = some (createHandler s rid cid d newId now).1
    ∧ (createHandler s rid cid 0 newId now).1.expiresAt
        = (createHandler s rid cid 7 newId now).1.expiresAt := by
  refine ⟨rfl, rfl, get_create_self s _, ?_⟩
  have h07 : effectiveDays 0 = effectiveDays 7 := by decide
  show now + effectiveDays 0 = now + effectiveDays 7
  rw [h07]

/-- C6: respond answers the invalid-status client error and leaves the store
unchanged when the lowercased status is none of the three terminal values;
with a valid status and an unknown id it answers not-found and leaves the
store unchanged; and on an unknown id it never succeeds and never changes
the store. -/
theorem respond_error_spec (s : RequestStore) (i raw chatURL : String) (chat : ChatOutcome) :
    (¬ (lowerStr raw = "confirmed" ∨ lowerStr raw = "rejected"
          ∨ lowerStr raw = "no_response") →
       (respondHandler s i raw chatURL chat).1 = RespondResult.invalidStatus
       ∧ (respondHandler s i raw chatURL chat).2.1 = s)
    ∧ ((lowerStr raw = "confirmed" ∨ lowerStr raw = "rejected"
          ∨ lowerStr raw = "no_response") →
       RequestStore.get s i = none →
       (respondHandler s i raw chatURL chat).1 = RespondResult.notFound
       ∧ (respondHandler s i raw chatURL chat).2.1 = s)
    ∧ (RequestStore.get s i = none →
       (∀ r, (respondHandler s i raw chatURL chat).1 ≠ RespondResult.ok r)
       ∧ (respondHandler s i raw chatURL chat).2.1 = s) := by
  refine ⟨?_, ?_, ?_⟩
  · intro hbad
    have hv : validRespondStatus raw = false := by
      have h1 := mt (validRespondStatus_iff raw).mp hbad
      simpa using h1
    simp [respondHandler, hv]
  · intro hgood hnone
    have hv : validRespondStatus raw = true := (validRespondStatus_iff raw).mpr hgood
    have hup := update_of_get_none s i (lowerStr raw) hnone
    simp [respondHandler, hv, hup]
  · intro hnone
    have hup := update_of_get_none s i (lowerStr raw) hnone
    cases hv : validRespondStatus raw with
    | true => simp [respondHandler, hv, hup]
    | false => simp [respondHandler, hv]

theorem respond_error_spec_witness :
    ((respondHandler [] "x" "bogus" "" ChatOutcome.success).1 = RespondResult.invalidStatus
     ∧ (respondHandler [] "x" "bogus" "" ChatOutcome.success).2.1 = [])
    ∧ ((respondHandler [] "x" "confirmed" "" ChatOutcome.success).1 = RespondResult.notFound
     ∧ (respondHandler [] "x" "confirmed" "" ChatOutcome.success).2.1 = []) :=
  ⟨(respond_error_spec [] "x" "bogus" "" ChatOutcome.success).1 (by decide),
   (respond_error_spec [] "x" "confirmed" "" ChatOutcome.success).2.1 (by decide) (by decide)⟩

/-- C10: the respond handler validates the status before looking the id up:
an unknown id with an invalid status yields the invalid-status error, never
not-found; a not-found answer implies the status was valid and the id
unknown. -/
theorem respond_status_checked_first (s : RequestStore) (i raw chatURL : String)
    (chat : ChatOutcome) :
    (RequestStore.get s i = none →
     ¬ (lowerStr raw = "confirmed" ∨ lowerStr raw = "rejected"
          ∨ lowerStr raw = "no_response") →
       (respondHandler s i raw chatURL chat).1 = RespondResult.invalidStatus
       ∧ (respondHandler s i raw chatURL chat).1 ≠ RespondResult.notFound)
    ∧ ((respondHandler s i raw chatURL chat).1 = RespondResult.notFound →
       (lowerStr raw = "confirmed" ∨ lowerStr raw = "rejected"
          ∨ lowerStr raw = "no_response")
       ∧ RequestStore.get s i = none) := by
  constructor
  · intro hnone hbad
    have hv : validRespondStatus raw = false := by
      have h1 := mt (validRespondStatus_iff raw).mp hbad
      simpa using h1
    simp [respondHandler, hv]
  · intro hres
    cases hv : validRespondStatus raw with
    | false => simp [respondHandler, hv] at hres
    | true =>
      refine ⟨(validRespondStatus_iff raw).mp hv, ?_⟩
      by_contra hsome
      obtain ⟨r, hr⟩ := Option.ne_none_iff_exists'.mp hsome
      have hup := update_of_get_some s i (lowerStr raw) r hr
      simp [respondHandler, hv, hup] at hres

theorem respond_status_checked_first_witness :
    (((respondHandler [] "y" "bogus" "" ChatOutcome.success).1 = RespondResult.invalidStatus
      ∧ (respondHandler [] "y" "bogus" "" ChatOutcome.success).1 ≠ RespondResult.notFound))
    ∧ ((lowerStr "confirmed" = "confirmed" ∨ lowerStr "confirmed" = "rejected"
          ∨ lowerStr "confirmed" = "no_response")
       ∧ RequestStore.get ([] : RequestStore) "y" = none) :=
  ⟨(respond_status_checked_first [] "y" "bogus" "" ChatOutcome.success).1 (by decide) (by decide),
   (respond_status_checked_first [] "y" "confirmed" "" ChatOutcome.success).2 (by decide)⟩

/-- C7: responding confirmed on a stored request persists the confirmed
status and answers ok, the result and the new store are the same whatever
the chat-call outcome is, and the status persistence is the first observable
action, before any chat attempt. -/
theorem respond_confirmed_commit (s : RequestStore) (i chatURL : String)
    (r : InterviewRequest) (hget : RequestStore.get s i = some r)
    (chat chat2 : ChatOutcome) :
    respondHandler s i "confirmed" chatURL chat
        = respondHandler s i "confirmed" chatURL chat2
    ∧ (respondHandler s i "confirmed" chatURL chat).1
        = RespondResult.ok { r with status := "confirmed" }
    ∧ RequestStore.get (respondHandler s i "confirmed" chatURL chat).2.1 i
        = some { r with status := "confirmed" }
    ∧ ((respondHandler s i "confirmed" chatURL chat).2.2).head?
        = some (WfEvent.statusPersisted i "confirmed") := by
  have hl : lowerStr "confirmed" = "confirmed" := by decide
  have hv : validRespondStatus "confirmed" = true := by decide
  have hup := update_of_get_some s i (lowerStr "confirmed") r hget
  rw [hl] at hup
  have h3 := get_map_update_self s i r ({ r with status := "confirmed" }) hget
  refine ⟨rfl, ?_, ?_, ?_⟩
  · simp [respondHandler, hv, hl, hup]
  · simp [respondHandler, hv, hl, hup, h3]
  · simp [respondHandler, hv, hl, hup]

theorem respond_confirmed_commit_witness :
    RequestStore.get [("req1", wReq1)] "req1" = some wReq1
    ∧ RequestStore.get
        (respondHandler [("req1", wReq1)] "req1" "confirmed" "http" ChatOutcome.timeout).2.1
        "req1"
      = some { wReq1 with status := "confirmed" } :=
  ⟨by decide,
   (respond_confirmed_commit [("req1", wReq1)] "req1" "http" wReq1 (by decide)
      ChatOutcome.timeout ChatOutcome.networkError).2.2.1⟩

/-- C2 counterexample: create a request, respond confirmed (a terminal
status), then respond rejected: the stored status moves from the terminal
value confirmed to rejected, so a terminal status is not frozen and a status
change not starting from pending is possible. -/
theorem terminal_status_overwritten :
    (RequestStore.get (runOps (demoOps.take 2)) "req1").map (fun r => r.status)
        = some "confirmed"
    ∧ (RequestStore.get (runOps demoOps) "req1").map (fun r => r.status)
        = some "rejected"
    ∧ ("confirmed" : String) ≠ "rejected" := by
  decide

/-- C2 (amended): over any single operation with a fresh generated id on
create, every stored request keeps its id, recruiter id, candidate id and
expiresAt, and its status either stays what it was or becomes one of the
three terminal values (so it never returns to pending); a terminal status is
however not frozen and may be overwritten by another terminal value. -/
theorem request_invariants_step (s : RequestStore) (op : WfOp) (i : String)
    (r : InterviewRequest) (hfresh : opFresh s op)
    (hr : RequestStore.get s i = some r) :
    ∃ r2, RequestStore.get (applyOp s op) i = some r2
      ∧ r2.id = r.id ∧ r2.recruiterId = r.recruiterId ∧ r2.candidateId = r.candidateId
      ∧ r2.expiresAt = r.expiresAt
      ∧ (r2.status = r.status ∨ r2.status = "confirmed" ∨ r2.status = "rejected"
          ∨ r2.status = "no_response") := by
  cases op with
  | createReq rid cid d newId now =>
    have hne : i ≠ newId := by
      intro h
      subst h
      have hf2 : RequestStore.get s i = none := hfresh
      rw [hr] at hf2
      exact Option.noConfusion hf2
    refine ⟨r, ?_, rfl, rfl, rfl, rfl, Or.inl rfl⟩
    exact (get_create_ne s _ i hne).trans hr
  | respond j raw url chat =>
    cases hv : validRespondStatus raw with
    | false =>
      refine ⟨r, ?_, rfl, rfl, rfl, rfl, Or.inl rfl⟩
      show RequestStore.get (respondHandler s j raw url chat).2.1 i = some r
      simp [respondHandler, hv, hr]
    | true =>
      cases hj : RequestStore.get s j with
      | none =>
        have hup := update_of_get_none s j (lowerStr raw) hj
        refine ⟨r, ?_, rfl, rfl, rfl, rfl, Or.inl rfl⟩
        show RequestStore.get (respondHandler s j raw url chat).2.1 i = some r
        simp [respondHandler, hv, hup, hr]
      | some rj =>
        have hup := update_of_get_some s j (lowerStr raw) rj hj
        by_cases hij : i = j
        · subst hij
          obtain rfl : rj = r := by rw [hr] at hj; exact (Option.some.inj hj).symm
          refine ⟨{ rj with status := lowerStr raw }, ?_, rfl, rfl, rfl, rfl, ?_⟩
          · show RequestStore.get (respondHandler s i raw url chat).2.1 i = some _
            have h5 := get_map_update_self s i rj ({ rj with status := lowerStr raw }) hj
            simp [respondHandler, hv, hup, h5]
          · rcases (validRespondStatus_iff raw).mp hv with h | h | h
            · exact Or.inr (Or.inl h)
            · exact Or.inr (Or.inr (Or.inl h))
            · exact Or.inr (Or.inr (Or.inr h))
        · refine ⟨r, ?_, rfl, rfl, rfl, rfl, Or.inl rfl⟩
          show RequestStore.get (respondHandler s j raw url chat).2.1 i = some r
          have h6 := get_map_update_ne s j i ({ rj with status := lowerStr raw }) hij
          simp [respondHandler, hv, hup, h6, hr]

theorem request_invariants_step_witness :
    opFresh [("req1", wReq1)] (WfOp.respond "req1" "confirmed" "" ChatOutcome.success)
    ∧ RequestStore.get [("req1", wReq1)] "req1" = some wReq1
    ∧ ∃ r2, RequestStore.get
          (applyOp [("req1", wReq1)]
            (WfOp.respond "req1" "confirmed" "" ChatOutcome.success)) "req1"
        = some r2
      ∧ r2.id = wReq1.id ∧ r2.recruiterId = wReq1.recruiterId
      ∧ r2.candidateId = wReq1.candidateId ∧ r2.expiresAt = wReq1.expiresAt
      ∧ (r2.status = wReq1.status ∨ r2.status = "confirmed" ∨ r2.status = "rejected"
          ∨ r2.status = "no_response") :=
  ⟨trivial, by decide,
   request_invariants_step [("req1", wReq1)]
     (WfOp.respond "req1" "confirmed" "" ChatOutcome.success) "req1" wReq1 trivial (by decide)⟩
